import Mathlib

/-!
# Verification of the DDR_Song_Similarity repository

This file is a shallow embedding, in Lean 4, of the two Python programs of
the repository:

* `retag_sm.py` — walks a StepMania songs tree, resolves a descriptor file
  (`.ssc` preferred over `.sm`) per directory, extracts `#TITLE:`,
  `#SUBTITLE:` and `#ARTIST:` fields by first-match pattern search, and
  rewrites the tags of every `.ogg`/`.mp3` audio file (full wipe, then
  title/artist/album written under presence rules).
* `similar_csv.py` — reads a song manifest, queries a similarity API per
  row, and writes ranked CSV rows plus one rank `-1` "farthest" row.

Strings are modelled as `List Char`, filesystem paths as lists of path
components, file contents and API responses as explicit parameters, and the
mutable tag containers (Vorbis comments / ID3) as a record of optional
fields plus a list of extra fields.  Console output and tag writes are
modelled as an event list.
-/

set_option autoImplicit false

namespace DDR

/-- Strings are lists of characters. -/
abbrev Str := List Char

/-- ASCII whitespace as recognised by Python's `str.strip()`
(space, tab, newline, carriage return, vertical tab, form feed). -/
def isPySpace (c : Char) : Bool :=
  c = ' ' || c = '\t' || c = '\n' || c = '\r' || c = Char.ofNat 11 || c = Char.ofNat 12

/-- Remove leading whitespace (left half of Python `str.strip()`). -/
def lstrip (s : Str) : Str := s.dropWhile isPySpace

/-- Remove trailing whitespace (right half of Python `str.strip()`). -/
def rstrip (s : Str) : Str := (s.reverse.dropWhile isPySpace).reverse

/-- Python `str.strip()`: remove whitespace from both ends. -/
def pyStrip (s : Str) : Str := lstrip (rstrip s)

/-- Case-insensitive prefix test: does `s` start with `key`
(comparing characters lowercased)?  Models the `re.IGNORECASE` matching of
the literal part of the pattern. -/
def matchesCI : Str → Str → Bool
  | [], _ => true
  | _ :: _, [] => false
  | k :: ks, c :: cs => (c.toLower = k.toLower) && matchesCI ks cs

/-- The regex tail `([^;]*);` at the current position: greedily capture
every character up to the first `;`, which must exist for the match to
succeed. -/
def captureValue (s : Str) : Option Str :=
  if ';' ∈ s then some (s.takeWhile (fun c => c ≠ ';')) else none

/-- `re.search` for the pattern `key([^;]*);` (case-insensitive on `key`):
try every start position from the left; at the first position where the
literal key matches and a terminating `;` follows, return the captured
value. -/
def regexSearch (key : Str) : Str → Option Str
  | [] => none
  | c :: cs =>
    if matchesCI key (c :: cs) then
      match captureValue ((c :: cs).drop key.length) with
      | some v => some v
      | none => regexSearch key cs
    else regexSearch key cs

def titleKey : Str := "#TITLE:".toList
def subtitleKey : Str := "#SUBTITLE:".toList
def artistKey : Str := "#ARTIST:".toList

/-- The field set extracted from a descriptor file: each of the three keys
is present exactly when its pattern matched (`tags` dict in the source). -/
structure DescriptorFields where
  title : Option Str
  subtitle : Option Str
  artist : Option Str
deriving DecidableEq

/-- `parse_metadata_file` of `retag_sm.py`.  The file content is passed
explicitly: `none` models a read failure (the `except` branch logs and
returns the empty dict), `some c` models a successful read of content `c`.
Each matched value is stored stripped of leading/trailing whitespace. -/
def parse_metadata_file (content : Option Str) : DescriptorFields :=
  match content with
  | none => ⟨none, none, none⟩
  | some c =>
    ⟨(regexSearch titleKey c).map pyStrip,
     (regexSearch subtitleKey c).map pyStrip,
     (regexSearch artistKey c).map pyStrip⟩

/-- A filesystem path, as its list of components. -/
abbrev Path := List Str

/-- `os.path.basename`: the last path component (empty for the root). -/
def basename (p : Path) : Str := p.getLastD []

/-- `os.path.dirname`: the path without its last component. -/
def dirname (p : Path) : Path := p.dropLast

/-- `get_album_name` of `retag_sm.py`: the name of the directory two
levels above the audio file. -/
def get_album_name (file_path : Path) : Str :=
  basename (dirname (dirname file_path))

/-- The extension part of `os.path.splitext` on a file name: the suffix
from the last dot, unless every character before that dot is itself a dot
(so dot-files such as `.ogg` have no extension). -/
def splitextExt (name : Str) : Str :=
  let afterLen := (name.reverse.takeWhile (fun c => c ≠ '.')).length
  if afterLen = name.length then []
  else
    let dotIdx := name.length - afterLen - 1
    if (name.take dotIdx).all (fun c => c = '.') then []
    else name.drop dotIdx

/-- `os.path.splitext(...)[1].lower()` applied to a file name. -/
def lowerExt (name : Str) : Str := (splitextExt name).map Char.toLower

def oggExt : Str := ".ogg".toList
def mp3Ext : Str := ".mp3".toList
def sscExt : Str := ".ssc".toList
def smExt : Str := ".sm".toList

/-- `ext_check in ['.ogg', '.mp3']`. -/
def isAudioName (name : Str) : Bool :=
  decide (lowerExt name = oggExt ∨ lowerExt name = mp3Ext)

/-- The state of an audio file's tag container (Vorbis comments or ID3).
The three named fields are the ones the retagger writes; `extra` holds any
other fields a previous tagging left behind (wiped by the retagger). -/
structure TagContainer where
  title : Option Str
  artist : Option Str
  album : Option Str
  extra : List (Str × Str)
deriving DecidableEq

/-- The title combination step of `apply_tags`:
`final_title = tags.get('title', '')`, then, when the subtitle is a
non-empty string, `final_title = f"{final_title} {subtitle}".strip()`. -/
def finalTitle (new_tags : DescriptorFields) : Str :=
  let ft := new_tags.title.getD []
  let sub := new_tags.subtitle.getD []
  if sub ≠ [] then pyStrip (ft ++ ' ' :: sub) else ft

/-- The field set written by both container branches of `apply_tags` after
the full wipe: title only if non-empty, artist only if the key is present,
album always, and no other field (`delete()` wiped them all). -/
def writtenTags (new_tags : DescriptorFields) (album_name : Str) : TagContainer :=
  { title := if finalTitle new_tags ≠ [] then some (finalTitle new_tags) else none
  , artist := new_tags.artist
  , album := some album_name
  , extra := [] }

/-- `apply_tags` of `retag_sm.py`, as a function from the previous
container state to the new one.  `metaContent` is the content of the
selected descriptor file (`none` = unreadable).  The `.ogg` and `.mp3`
branches of the source perform the same wipe-then-write field sequence on
their respective container libraries; any other extension falls through
both branches and leaves the file untouched. -/
def apply_tags (metaContent : Option Str) (audio_path : Path)
    (prev : TagContainer) : TagContainer :=
  let new_tags := parse_metadata_file metaContent
  let album_name := get_album_name audio_path
  let ext := lowerExt (basename audio_path)
  if ext = oggExt then writtenTags new_tags album_name
  else if ext = mp3Ext then writtenTags new_tags album_name
  else prev

/-- The container value produced for an audio file: it depends only on the
descriptor content and the audio path. -/
def taggedValue (metaContent : Option Str) (audio_path : Path) : TagContainer :=
  writtenTags (parse_metadata_file metaContent) (get_album_name audio_path)

example : parse_metadata_file (some "#TITLE:Foo;#SUBTITLE:Bar;".toList)
    = ⟨some "Foo".toList, some "Bar".toList, none⟩ := by decide

example : finalTitle ⟨some "Foo".toList, some "Bar".toList, none⟩ = "Foo Bar".toList := by decide

example : lowerExt "Song.OGG".toList = ".ogg".toList := by decide

example : lowerExt ".ogg".toList = [] := by decide

example : get_album_name ["Songs".toList, "Pack_Name".toList, "Song_Folder".toList, "song.ogg".toList]
    = "Pack_Name".toList := by decide

example : parse_metadata_file (some "#ARTIST:;".toList) = ⟨none, none, some []⟩ := by decide

/-! ## The directory walk of `main` -/

/-- One directory visited by `os.walk`: its path and its file list, in
enumeration order. -/
structure SongDir where
  path : Path
  files : List Str
deriving DecidableEq

/-- `glob.glob(os.path.join(glob.escape(root), "*.ssc"), include_hidden=True)`
restricted to the directory's entries: thanks to `glob.escape` the pattern
matches exactly the names ending in the literal extension (case-sensitive
on POSIX), hidden names included. -/
def globMatches (ext : Str) (files : List Str) : List Str :=
  files.filter (fun f => ext.isSuffixOf f)

/-- The descriptor selection of `main` combined with `meta_path[0]` in
`apply_tags`: `source_meta_list = ssc_list if ssc_list else (sm_list if
sm_list else None)`, and the first element of the chosen list is used. -/
def resolveDescriptor (ssc_list sm_list : List Str) : Option Str :=
  match ssc_list with
  | f :: _ => some f
  | [] =>
    match sm_list with
    | f :: _ => some f
    | [] => none

/-- The descriptor file `main` selects for a directory with the given file
list. -/
def selectedDescriptor (files : List Str) : Option Str :=
  resolveDescriptor (globMatches sscExt files) (globMatches smExt files)

/-- Observable per-file effects of the walk: a tag write (with the full
container contents written), the "no descriptor" warning, and the
mixed-format warning. -/
inductive Event where
  | tagged : Path → TagContainer → Event
  | noDescriptorWarning : Str → Event
  | mixedFormatWarning : Path → Event
deriving DecidableEq

/-- The tag state of the tree: the container contents of every file path. -/
abbrev TagState := Path → TagContainer

/-- The body of the per-file loop of `main` for one file: audio files are
tagged when a descriptor was resolved and warned about otherwise; other
files are skipped.  `readFile` gives the content of a descriptor file by
name (`none` = read failure). -/
def stepFile (meta : Option Str) (readFile : Str → Option Str) (dirPath : Path)
    (acc : List Event × TagState) (file : Str) : List Event × TagState :=
  if isAudioName file then
    match meta with
    | some m =>
      let p := dirPath ++ [file]
      let newTags := apply_tags (readFile m) p (acc.2 p)
      (acc.1 ++ [Event.tagged p newTags], fun q => if q = p then newTags else acc.2 q)
    | none => (acc.1 ++ [Event.noDescriptorWarning file], acc.2)
  else acc

/-- The per-directory body of `main`: resolve the descriptor, loop over the
files, and finally warn when both container formats were observed. -/
def processDir (readFile : Str → Option Str) (st : TagState) (dir : SongDir) :
    List Event × TagState :=
  let source_meta := selectedDescriptor dir.files
  let r := dir.files.foldl (stepFile source_meta readFile dir.path) ([], st)
  let found_ogg := dir.files.any (fun f => decide (lowerExt f = oggExt))
  let found_mp3 := dir.files.any (fun f => decide (lowerExt f = mp3Ext))
  (r.1 ++ (if found_ogg && found_mp3 then [Event.mixedFormatWarning dir.path] else []), r.2)

/-- The walk of `main` over the visited directories, in order.  `readFile`
gives the content of a descriptor file from its directory's path and its
name. -/
def runRetagger (readFile : Path → Str → Option Str) :
    List SongDir → TagState → List Event × TagState
  | [], st => ([], st)
  | d :: rest, st =>
    let r := processDir (readFile d.path) st d
    let r2 := runRetagger readFile rest r.2
    (r.1 ++ r2.1, r2.2)

/-! ## The similarity exporter (`similar_csv.py`) -/

/-- One row of the input master CSV (the fields `retrieve_similarity`
reads). -/
structure ManifestRow where
  id : Str
  title : Str
  artist : Str
  album : Str
deriving DecidableEq

/-- One track object returned by the API (`.get` of a missing key yields
`none`, written as an empty CSV cell). -/
structure SimItem where
  title : Option Str
  author : Option Str
  album : Option Str
  distance : Option Str
deriving DecidableEq

/-- The combined outcome of the three API requests for one manifest row:
either some request raised (connection error or non-2xx status), or all
three succeeded with the similar-track list, the maximum distance and the
farthest track's metadata. -/
inductive ApiOutcome where
  | failure : ApiOutcome
  | success : List SimItem → Option Str → SimItem → ApiOutcome
deriving DecidableEq

/-- One row of the output CSV. -/
structure OutRow where
  source_title : Str
  source_artist : Str
  source_album : Str
  rank : Int
  title : Option Str
  artist : Option Str
  album : Option Str
  distance : Option Str
deriving DecidableEq

/-- The `writer.writerow` call inside the similar-songs loop: API `author`
is mapped to the `artist` column. -/
def simRow (row : ManifestRow) (rank : Int) (item : SimItem) : OutRow :=
  { source_title := row.title, source_artist := row.artist, source_album := row.album
  , rank := rank, title := item.title, artist := item.author
  , album := item.album, distance := item.distance }

/-- The similar-songs loop: `rank_value` starts at 1 and increments per
item, in result order. -/
def simRowsFrom (row : ManifestRow) (rank : Int) : List SimItem → List OutRow
  | [] => []
  | item :: rest => simRow row rank item :: simRowsFrom row (rank + 1) rest

/-- The final `writer.writerow` for the farthest song: rank `-1`, metadata
from the `/track` response, distance from the `/max_distance` response. -/
def farRow (row : ManifestRow) (farthest_meta : SimItem) (max_distance : Option Str) : OutRow :=
  { source_title := row.title, source_artist := row.artist, source_album := row.album
  , rank := -1, title := farthest_meta.title, artist := farthest_meta.author
  , album := farthest_meta.album, distance := max_distance }

/-- The output rows written for one manifest row: none when any of the
three requests failed (`continue`), otherwise one ranked row per result
followed by the rank `-1` farthest row. -/
def rowOutput (row : ManifestRow) : ApiOutcome → List OutRow
  | ApiOutcome.failure => []
  | ApiOutcome.success api_results max_distance farthest_meta =>
    simRowsFrom row 1 api_results ++ [farRow row farthest_meta max_distance]

/-- `retrieve_similarity` of `similar_csv.py`, over the manifest rows in
order; `api` gives the combined outcome of the three requests for a row. -/
def retrieve_similarity (api : ManifestRow → ApiOutcome) : List ManifestRow → List OutRow
  | [] => []
  | row :: rest => rowOutput row (api row) ++ retrieve_similarity api rest

/-! ## Characterisation of the per-directory loop -/

/-- The events one file contributes to the per-directory loop. -/
def fileEvent (meta : Option Str) (readFile : Str → Option Str) (dirPath : Path)
    (f : Str) : List Event :=
  if isAudioName f then
    match meta with
    | some m => [Event.tagged (dirPath ++ [f]) (taggedValue (readFile m) (dirPath ++ [f]))]
    | none => [Event.noDescriptorWarning f]
  else []

/-- The effect of one directory's loop on the tag state: with no resolved
descriptor the state is untouched; with descriptor `m`, exactly the audio
paths of the directory are overwritten with their canonical container
value. -/
def dirUpdate (meta : Option Str) (readFile : Str → Option Str) (dirPath : Path)
    (files : List Str) (st : TagState) : TagState :=
  match meta with
  | none => st
  | some m => fun q =>
    if files.any (fun f => isAudioName f && decide (q = dirPath ++ [f])) then
      taggedValue (readFile m) q
    else st q

/-- The mixed-format warning a directory emits after its file loop. -/
def mixedWarn (dir : SongDir) : List Event :=
  if (dir.files.any (fun f => decide (lowerExt f = oggExt)))
      && (dir.files.any (fun f => decide (lowerExt f = mp3Ext))) then
    [Event.mixedFormatWarning dir.path]
  else []

/-- All events one directory emits (independent of the incoming tag
state). -/
def dirEvents (readFile : Path → Str → Option Str) (dir : SongDir) : List Event :=
  dir.files.flatMap
    (fileEvent (selectedDescriptor dir.files) (readFile dir.path) dir.path)
    ++ mixedWarn dir

theorem basename_concat (p : Path) (f : Str) : basename (p ++ [f]) = f :=
  List.getLastD_concat _ _ _

theorem apply_tags_audio (mc : Option Str) (p : Path) (prev : TagContainer)
    (h : isAudioName (basename p) = true) : apply_tags mc p prev = taggedValue mc p := by
  have hne : mp3Ext ≠ oggExt := by decide
  simp only [isAudioName, decide_eq_true_eq] at h
  rcases h with h | h <;> simp [apply_tags, taggedValue, h, hne]

theorem dirUpdate_nil (meta : Option Str) (rf : Str → Option Str) (dp : Path)
    (st : TagState) : dirUpdate meta rf dp [] st = st := by
  cases meta with
  | none => rfl
  | some m => funext q; simp [dirUpdate]

theorem foldl_stepFile_char (meta : Option Str) (rf : Str → Option Str) (dp : Path) :
    ∀ (files : List Str) (evs : List Event) (st : TagState),
      files.foldl (stepFile meta rf dp) (evs, st)
        = (evs ++ files.flatMap (fileEvent meta rf dp), dirUpdate meta rf dp files st) := by
  intro files
  induction files with
  | nil => intro evs st; simp [dirUpdate_nil]
  | cons f fs ih =>
    intro evs st
    rw [List.foldl_cons]
    by_cases ha : isAudioName f = true
    · cases meta with
      | none =>
        have hstep : stepFile none rf dp (evs, st) f
            = (evs ++ [Event.noDescriptorWarning f], st) := by
          simp [stepFile, ha]
        rw [hstep, ih]
        simp only [Prod.mk.injEq]
        refine ⟨?_, rfl⟩
        simp [fileEvent, ha, List.append_assoc]
      | some m =>
        have hbase : isAudioName (basename (dp ++ [f])) = true := by
          rw [basename_concat]; exact ha
        have hstep : stepFile (some m) rf dp (evs, st) f
            = (evs ++ [Event.tagged (dp ++ [f]) (taggedValue (rf m) (dp ++ [f]))],
               fun q => if q = dp ++ [f] then taggedValue (rf m) (dp ++ [f]) else st q) := by
          simp only [stepFile, ha, if_true]
          rw [apply_tags_audio _ _ _ hbase]
        rw [hstep, ih]
        simp only [Prod.mk.injEq]
        constructor
        · simp [fileEvent, ha, List.append_assoc]
        · funext q
          simp only [dirUpdate, List.any_cons, ha, Bool.true_and]
          by_cases hq : q = dp ++ [f]
          · subst hq; simp
          · simp [hq]
    · have hstep : stepFile meta rf dp (evs, st) f = (evs, st) := by
        simp [stepFile, ha]
      rw [hstep, ih]
      simp only [Prod.mk.injEq]
      constructor
      · simp [fileEvent, ha]
      · cases meta with
        | none => rfl
        | some m => funext q; simp [dirUpdate, ha]

theorem processDir_char (rf : Str → Option Str) (st : TagState) (dir : SongDir) :
    processDir rf st dir
      = (dir.files.flatMap (fileEvent (selectedDescriptor dir.files) rf dir.path)
          ++ mixedWarn dir,
         dirUpdate (selectedDescriptor dir.files) rf dir.path dir.files st) := by
  simp only [processDir, mixedWarn]
  rw [foldl_stepFile_char]
  simp

theorem runRetagger_cons (rf : Path → Str → Option Str) (d : SongDir)
    (rest : List SongDir) (st : TagState) :
    runRetagger rf (d :: rest) st
      = ((processDir (rf d.path) st d).1
          ++ (runRetagger rf rest (processDir (rf d.path) st d).2).1,
         (runRetagger rf rest (processDir (rf d.path) st d).2).2) := rfl

/-- The events of a run do not depend on the incoming tag state: they are
the concatenation of each directory's events, in visit order. -/
theorem runRetagger_fst (rf : Path → Str → Option Str) :
    ∀ (dirs : List SongDir) (st : TagState),
      (runRetagger rf dirs st).1 = dirs.flatMap (dirEvents rf) := by
  intro dirs
  induction dirs with
  | nil => intro st; rfl
  | cons d rest ih =>
    intro st
    rw [runRetagger_cons, processDir_char, List.flatMap_cons, ih]
    rfl

theorem dirUpdate_override (meta : Option Str) (rf : Str → Option Str) (dp : Path)
    (files : List Str) (st : TagState) (q : Path) :
    dirUpdate meta rf dp files st q = st q ∨
      ∀ st₁ st₂ : TagState,
        dirUpdate meta rf dp files st₁ q = dirUpdate meta rf dp files st₂ q := by
  cases meta with
  | none => exact Or.inl rfl
  | some m =>
    by_cases h : files.any (fun f => isAudioName f && decide (q = dp ++ [f])) = true
    · exact Or.inr (fun st₁ st₂ => by simp [dirUpdate, h])
    · exact Or.inl (by simp [dirUpdate, h])

/-- At every path, a run either leaves the tag state untouched or
overwrites it with a value that does not depend on the incoming state. -/
theorem runRetagger_snd_override (rf : Path → Str → Option Str) :
    ∀ (dirs : List SongDir) (st : TagState) (q : Path),
      (runRetagger rf dirs st).2 q = st q ∨
        ∀ st₁ st₂ : TagState,
          (runRetagger rf dirs st₁).2 q = (runRetagger rf dirs st₂).2 q := by
  intro dirs
  induction dirs with
  | nil => intro st q; exact Or.inl rfl
  | cons d rest ih =>
    have hsnd : ∀ s : TagState, (runRetagger rf (d :: rest) s).2
        = (runRetagger rf rest
            (dirUpdate (selectedDescriptor d.files) (rf d.path) d.path d.files s)).2 := by
      intro s; rw [runRetagger_cons, processDir_char]
    intro st q
    rcases dirUpdate_override (selectedDescriptor d.files) (rf d.path) d.path d.files st q
        with h2 | h2
    · rcases ih (dirUpdate (selectedDescriptor d.files) (rf d.path) d.path d.files st) q
          with h1 | h1
      · exact Or.inl (by rw [hsnd, h1, h2])
      · exact Or.inr (fun st₁ st₂ => by rw [hsnd, hsnd]; exact h1 _ _)
    · refine Or.inr (fun st₁ st₂ => ?_)
      rw [hsnd, hsnd]
      rcases ih (dirUpdate (selectedDescriptor d.files) (rf d.path) d.path d.files st₁) q
          with h3 | h3
      · rcases ih (dirUpdate (selectedDescriptor d.files) (rf d.path) d.path d.files st₂) q
            with h4 | h4
        · rw [h3, h4]; exact h2 st₁ st₂
        · exact h4 _ _
      · exact h3 _ _

/-! ## Properties of `pyStrip` -/

theorem head?_dropWhile_not {α : Type} (p : α → Bool) :
    ∀ (l : List α) (c : α), (l.dropWhile p).head? = some c → p c = false := by
  intro l
  induction l with
  | nil => intro c h; simp at h
  | cons a t ih =>
    intro c h
    by_cases hp : p a = true
    · rw [List.dropWhile_cons, if_pos hp] at h
      exact ih c h
    · rw [List.dropWhile_cons, if_neg hp] at h
      simp only [List.head?_cons, Option.some.injEq] at h
      subst h
      simpa using hp

theorem dropWhile_eq_self_of_head? {α : Type} (p : α → Bool) (l : List α)
    (h : ∀ c, l.head? = some c → p c = false) : l.dropWhile p = l := by
  cases l with
  | nil => rfl
  | cons a t =>
    rw [List.dropWhile_cons, if_neg]
    simp [h a rfl]

theorem dropWhile_idem {α : Type} (p : α → Bool) (l : List α) :
    (l.dropWhile p).dropWhile p = l.dropWhile p :=
  dropWhile_eq_self_of_head? p _ (head?_dropWhile_not p l)

theorem getLast?_dropWhile {α : Type} (p : α → Bool) :
    ∀ l : List α, l.dropWhile p ≠ [] → (l.dropWhile p).getLast? = l.getLast? := by
  intro l
  induction l with
  | nil => intro h; simp at h
  | cons a t ih =>
    intro h
    by_cases hp : p a = true
    · rw [List.dropWhile_cons, if_pos hp] at h ⊢
      rw [ih h]
      have ht : t ≠ [] := by
        intro he; subst he; simp at h
      cases t with
      | nil => exact absurd rfl ht
      | cons b u => rw [List.getLast?_cons_cons]
    · rw [List.dropWhile_cons, if_neg hp]

theorem lstrip_idem (s : Str) : lstrip (lstrip s) = lstrip s :=
  dropWhile_idem _ s

theorem rstrip_eq_self (s : Str)
    (h : ∀ c, s.getLast? = some c → isPySpace c = false) : rstrip s = s := by
  unfold rstrip
  rw [dropWhile_eq_self_of_head?]
  · exact s.reverse_reverse
  · intro c hc
    rw [List.head?_reverse] at hc
    exact h c hc

theorem getLast?_rstrip_not (s : Str) (c : Char)
    (h : (rstrip s).getLast? = some c) : isPySpace c = false := by
  unfold rstrip at h
  rw [← List.head?_reverse, List.reverse_reverse] at h
  exact head?_dropWhile_not _ _ _ h

theorem pyStrip_idem (s : Str) : pyStrip (pyStrip s) = pyStrip s := by
  unfold pyStrip
  have hz : rstrip (lstrip (rstrip s)) = lstrip (rstrip s) := by
    apply rstrip_eq_self
    intro c hc
    by_cases hnil : lstrip (rstrip s) = []
    · rw [hnil] at hc; simp at hc
    · unfold lstrip at hc hnil
      rw [getLast?_dropWhile isPySpace (rstrip s) hnil] at hc
      exact getLast?_rstrip_not s c hc
  rw [hz, lstrip_idem]

theorem pyStrip_append_space (s : Str) : pyStrip (s ++ [' ']) = pyStrip s := by
  unfold pyStrip rstrip
  rw [List.reverse_append]
  simp [List.dropWhile_cons, isPySpace]

/-- The extracted title is already stripped, so stripping it again is the
identity. -/
theorem pyStrip_title_getD (c : Str) :
    pyStrip ((parse_metadata_file (some c)).title.getD [])
      = (parse_metadata_file (some c)).title.getD [] := by
  cases h : regexSearch titleKey c with
  | none => simp [parse_metadata_file, h, pyStrip, lstrip, rstrip]
  | some v => simp [parse_metadata_file, h, pyStrip_idem]

/-- The title actually computed by `apply_tags` equals the parsed title and
subtitle joined by one space and stripped, in every case (also when the
subtitle is absent or empty, because the parsed title is already
stripped). -/
theorem finalTitle_join (c : Str) :
    finalTitle (parse_metadata_file (some c))
      = pyStrip ((parse_metadata_file (some c)).title.getD []
          ++ ' ' :: (parse_metadata_file (some c)).subtitle.getD []) := by
  by_cases hsub : (parse_metadata_file (some c)).subtitle.getD [] = []
  · rw [hsub]
    simp only [finalTitle, hsub, ne_eq, not_true_eq_false, if_false]
    rw [show (' ' :: ([] : Str)) = [' '] from rfl, pyStrip_append_space,
      pyStrip_title_getD]
  · simp only [finalTitle, hsub, ne_eq, not_false_eq_true, if_true]

/-! ## The claims -/

/-- C1: for every tagged audio file the written title is the descriptor's
title and subtitle joined with a single space and trimmed; a descriptor
with `#TITLE:Foo;` and `#SUBTITLE:Bar;` yields title `"Foo Bar"`, one
without the subtitle key yields `"Foo"`, and when the combined result is
empty the title field is not written at all. -/
theorem c1_final_title_join (p : Path) (prev : TagContainer)
    (h : isAudioName (basename p) = true) :
    (apply_tags (some "#TITLE:Foo;#SUBTITLE:Bar;".toList) p prev).title
        = some "Foo Bar".toList
    ∧ (apply_tags (some "#TITLE:Foo;".toList) p prev).title = some "Foo".toList
    ∧ (∀ c : Str, (apply_tags (some c) p prev).title
        = if finalTitle (parse_metadata_file (some c)) = [] then none
          else some (finalTitle (parse_metadata_file (some c))))
    ∧ (∀ c : Str, finalTitle (parse_metadata_file (some c))
        = pyStrip ((parse_metadata_file (some c)).title.getD []
            ++ ' ' :: (parse_metadata_file (some c)).subtitle.getD [])) := by
  refine ⟨?_, ?_, ?_, fun c => finalTitle_join c⟩
  · rw [apply_tags_audio _ _ _ h]
    simp only [taggedValue, writtenTags]
    decide
  · rw [apply_tags_audio _ _ _ h]
    simp only [taggedValue, writtenTags]
    decide
  · intro c
    rw [apply_tags_audio _ _ _ h]
    simp only [taggedValue, writtenTags]
    by_cases hf : finalTitle (parse_metadata_file (some c)) = [] <;> simp [hf]

theorem c1_final_title_join_witness :
    (apply_tags (some "#TITLE:Foo;#SUBTITLE:Bar;".toList)
        ["Songs".toList, "Pack".toList, "Song".toList, "song.ogg".toList]
        ⟨none, none, none, []⟩).title = some "Foo Bar".toList
    ∧ (apply_tags (some "#TITLE:Foo;".toList)
        ["Songs".toList, "Pack".toList, "Song".toList, "song.ogg".toList]
        ⟨none, none, none, []⟩).title = some "Foo".toList
    ∧ (∀ c : Str, (apply_tags (some c)
        ["Songs".toList, "Pack".toList, "Song".toList, "song.ogg".toList]
        ⟨none, none, none, []⟩).title
        = if finalTitle (parse_metadata_file (some c)) = [] then none
          else some (finalTitle (parse_metadata_file (some c))))
    ∧ (∀ c : Str, finalTitle (parse_metadata_file (some c))
        = pyStrip ((parse_metadata_file (some c)).title.getD []
            ++ ' ' :: (parse_metadata_file (some c)).subtitle.getD [])) :=
  c1_final_title_join
    ["Songs".toList, "Pack".toList, "Song".toList, "song.ogg".toList]
    ⟨none, none, none, []⟩ (by decide)

/-- C6: the artist field written by `apply_tags` is exactly the parsed
artist field, so when the descriptor text has no match for the
`#ARTIST:...;` pattern the artist field is not written at all (it is
`none`, not the empty string). -/
theorem c6_artist_only_if_present (c : Str) (p : Path) (prev : TagContainer)
    (h : isAudioName (basename p) = true) :
    (apply_tags (some c) p prev).artist = (parse_metadata_file (some c)).artist
    ∧ ((parse_metadata_file (some c)).artist = none ↔ regexSearch artistKey c = none) := by
  constructor
  · rw [apply_tags_audio _ _ _ h]; rfl
  · simp [parse_metadata_file]

theorem c6_artist_only_if_present_witness :
    (apply_tags (some "#TITLE:Foo;".toList)
        ["Songs".toList, "Pack".toList, "Song".toList, "song.ogg".toList]
        ⟨none, some "old".toList, none, []⟩).artist
      = (parse_metadata_file (some "#TITLE:Foo;".toList)).artist
    ∧ ((parse_metadata_file (some "#TITLE:Foo;".toList)).artist = none
        ↔ regexSearch artistKey "#TITLE:Foo;".toList = none) :=
  c6_artist_only_if_present "#TITLE:Foo;".toList
    ["Songs".toList, "Pack".toList, "Song".toList, "song.ogg".toList]
    ⟨none, some "old".toList, none, []⟩ (by decide)

/-- C7: the album field is always written, for every descriptor content
(including an unreadable descriptor), and always equals the base name of
the directory two path levels above the audio file. -/
theorem c7_album_grandparent (mc : Option Str) (p : Path) (prev : TagContainer)
    (h : isAudioName (basename p) = true) :
    (apply_tags mc p prev).album = some (get_album_name p)
    ∧ get_album_name p = basename (dirname (dirname p)) := by
  refine ⟨?_, rfl⟩
  rw [apply_tags_audio _ _ _ h]
  rfl

theorem c7_album_grandparent_witness :
    (apply_tags (some "#TITLE:Foo;#ARTIST:Someone;".toList)
        ["Songs".toList, "Pack_Name".toList, "Song_Folder".toList, "song.ogg".toList]
        ⟨none, none, some "stale".toList, []⟩).album
      = some (get_album_name
          ["Songs".toList, "Pack_Name".toList, "Song_Folder".toList, "song.ogg".toList])
    ∧ get_album_name
        ["Songs".toList, "Pack_Name".toList, "Song_Folder".toList, "song.ogg".toList]
      = basename (dirname (dirname
          ["Songs".toList, "Pack_Name".toList, "Song_Folder".toList, "song.ogg".toList])) :=
  c7_album_grandparent (some "#TITLE:Foo;#ARTIST:Someone;".toList)
    ["Songs".toList, "Pack_Name".toList, "Song_Folder".toList, "song.ogg".toList]
    ⟨none, none, some "stale".toList, []⟩ (by decide)

/-- C10: a descriptor whose artist key captures only whitespace (such as
`#ARTIST:;` or `#ARTIST:   ;`) yields an artist field that is present with
the empty-string value, and the artist tag is then written as the empty
string — unlike a descriptor with no artist match, where it is not written
at all. -/
theorem c10_empty_artist_value (p : Path) (prev : TagContainer)
    (h : isAudioName (basename p) = true) :
    (parse_metadata_file (some "#ARTIST:;".toList)).artist = some []
    ∧ (parse_metadata_file (some "#ARTIST:   ;".toList)).artist = some []
    ∧ (apply_tags (some "#ARTIST:;".toList) p prev).artist = some []
    ∧ (apply_tags (some "#ARTIST:   ;".toList) p prev).artist = some []
    ∧ (apply_tags (some "".toList) p prev).artist = none := by
  refine ⟨by decide, by decide, ?_, ?_, ?_⟩ <;>
    (rw [apply_tags_audio _ _ _ h]; simp only [taggedValue, writtenTags]; decide)

theorem c10_empty_artist_value_witness :
    (parse_metadata_file (some "#ARTIST:;".toList)).artist = some []
    ∧ (parse_metadata_file (some "#ARTIST:   ;".toList)).artist = some []
    ∧ (apply_tags (some "#ARTIST:;".toList)
        ["Songs".toList, "Pack".toList, "Song".toList, "song.mp3".toList]
        ⟨none, none, none, []⟩).artist = some []
    ∧ (apply_tags (some "#ARTIST:   ;".toList)
        ["Songs".toList, "Pack".toList, "Song".toList, "song.mp3".toList]
        ⟨none, none, none, []⟩).artist = some []
    ∧ (apply_tags (some "".toList)
        ["Songs".toList, "Pack".toList, "Song".toList, "song.mp3".toList]
        ⟨none, none, none, []⟩).artist = none :=
  c10_empty_artist_value
    ["Songs".toList, "Pack".toList, "Song".toList, "song.mp3".toList]
    ⟨none, none, none, []⟩ (by decide)

/-- C2: descriptor resolution picks the first `.ssc` file when one exists,
otherwise the first `.sm` file when one exists, otherwise none; in
particular a directory holding both kinds selects an `.ssc` one. -/
theorem c2_descriptor_priority (files : List Str) :
    (∀ f, f ∈ files → sscExt.isSuffixOf f = true →
      ∃ h, selectedDescriptor files = some h ∧ sscExt.isSuffixOf h = true
        ∧ h ∈ files ∧ (globMatches sscExt files).head? = some h)
    ∧ ((∀ f, f ∈ files → sscExt.isSuffixOf f = false) →
        ∀ g, g ∈ files → smExt.isSuffixOf g = true →
          ∃ h, selectedDescriptor files = some h ∧ smExt.isSuffixOf h = true
            ∧ h ∈ files ∧ (globMatches smExt files).head? = some h)
    ∧ ((∀ f, f ∈ files → sscExt.isSuffixOf f = false ∧ smExt.isSuffixOf f = false) →
        selectedDescriptor files = none) := by
  refine ⟨?_, ?_, ?_⟩
  · intro f hf hsf
    cases hssc : globMatches sscExt files with
    | nil =>
      exfalso
      have hmem : f ∈ globMatches sscExt files := List.mem_filter.mpr ⟨hf, hsf⟩
      rw [hssc] at hmem
      simp at hmem
    | cons h t =>
      have hmem : h ∈ globMatches sscExt files := by
        rw [hssc]; exact List.mem_cons_self _ _
      refine ⟨h, ?_, (List.mem_filter.mp hmem).2, (List.mem_filter.mp hmem).1, ?_⟩
      · simp [selectedDescriptor, resolveDescriptor, hssc]
      · rfl
  · intro hnossc g hg hsg
    have hempty : globMatches sscExt files = [] := by
      apply List.filter_eq_nil_iff.mpr
      intro a ha
      simp [hnossc a ha]
    cases hsm : globMatches smExt files with
    | nil =>
      exfalso
      have hmem : g ∈ globMatches smExt files := List.mem_filter.mpr ⟨hg, hsg⟩
      rw [hsm] at hmem
      simp at hmem
    | cons h t =>
      have hmem : h ∈ globMatches smExt files := by
        rw [hsm]; exact List.mem_cons_self _ _
      refine ⟨h, ?_, (List.mem_filter.mp hmem).2, (List.mem_filter.mp hmem).1, ?_⟩
      · simp [selectedDescriptor, resolveDescriptor, hempty, hsm]
      · rfl
  · intro hnone
    have h1 : globMatches sscExt files = [] := by
      apply List.filter_eq_nil_iff.mpr
      intro a ha
      simp [(hnone a ha).1]
    have h2 : globMatches smExt files = [] := by
      apply List.filter_eq_nil_iff.mpr
      intro a ha
      simp [(hnone a ha).2]
    simp [selectedDescriptor, resolveDescriptor, h1, h2]

theorem c2_descriptor_priority_witness :
    ∃ h, selectedDescriptor ["notes.ssc".toList, "notes.sm".toList, "song.ogg".toList]
          = some h
      ∧ sscExt.isSuffixOf h = true
      ∧ h ∈ ["notes.ssc".toList, "notes.sm".toList, "song.ogg".toList]
      ∧ (globMatches sscExt
          ["notes.ssc".toList, "notes.sm".toList, "song.ogg".toList]).head? = some h :=
  (c2_descriptor_priority
      ["notes.ssc".toList, "notes.sm".toList, "song.ogg".toList]).1
    "notes.ssc".toList (by decide) (by decide)

/-- C3: in a directory where no descriptor is resolved, the tag state is
left completely unchanged, every audio file gets a "no descriptor found"
warning, and no tag-write event of any kind occurs. -/
theorem c3_no_descriptor_untouched (rf : Str → Option Str) (st : TagState)
    (dir : SongDir) (h : selectedDescriptor dir.files = none) :
    (processDir rf st dir).2 = st
    ∧ (∀ f, f ∈ dir.files → isAudioName f = true →
        Event.noDescriptorWarning f ∈ (processDir rf st dir).1)
    ∧ (∀ (p : Path) (t : TagContainer), Event.tagged p t ∉ (processDir rf st dir).1) := by
  simp only [processDir_char, h]
  refine ⟨rfl, ?_, ?_⟩
  · intro f hf ha
    apply List.mem_append_left
    apply List.mem_flatMap.mpr
    exact ⟨f, hf, by simp [fileEvent, ha]⟩
  · intro p t hmem
    rcases List.mem_append.mp hmem with hm | hm
    · rcases List.mem_flatMap.mp hm with ⟨g, hg, hev⟩
      by_cases hag : isAudioName g = true
      · simp [fileEvent, hag] at hev
      · simp [fileEvent, hag] at hev
    · unfold mixedWarn at hm
      by_cases hmix : ((dir.files.any fun f => decide (lowerExt f = oggExt))
          && dir.files.any fun f => decide (lowerExt f = mp3Ext)) = true
      · simp [hmix] at hm
      · simp [hmix] at hm

theorem c3_no_descriptor_untouched_witness :
    (processDir (fun _ => none) (fun _ => ⟨none, none, none, []⟩)
        ⟨["Songs".toList, "Pack".toList, "Song".toList],
         ["song.ogg".toList, "readme.txt".toList]⟩).2
      = (fun _ => ⟨none, none, none, []⟩)
    ∧ (∀ f, f ∈ ["song.ogg".toList, "readme.txt".toList] → isAudioName f = true →
        Event.noDescriptorWarning f
          ∈ (processDir (fun _ => none) (fun _ => ⟨none, none, none, []⟩)
              ⟨["Songs".toList, "Pack".toList, "Song".toList],
               ["song.ogg".toList, "readme.txt".toList]⟩).1)
    ∧ (∀ (p : Path) (t : TagContainer),
        Event.tagged p t
          ∉ (processDir (fun _ => none) (fun _ => ⟨none, none, none, []⟩)
              ⟨["Songs".toList, "Pack".toList, "Song".toList],
               ["song.ogg".toList, "readme.txt".toList]⟩).1) :=
  c3_no_descriptor_untouched (fun _ => none) (fun _ => ⟨none, none, none, []⟩)
    ⟨["Songs".toList, "Pack".toList, "Song".toList],
     ["song.ogg".toList, "readme.txt".toList]⟩ (by decide)

/-- C5: an unreadable descriptor parses to the empty field set instead of
raising; every audio file of its directory is then still tagged, with only
the album field set (no title, no artist); and the events of subsequent
directories are unaffected (the walk continues, with each directory's
events computed independently of the tag state). -/
theorem c5_unreadable_descriptor (rf : Str → Option Str) (st : TagState) (dir : SongDir) :
    parse_metadata_file none = ⟨none, none, none⟩
    ∧ (∀ (p : Path) (prev : TagContainer),
        apply_tags none p prev
          = if isAudioName (basename p) then
              ⟨none, none, some (get_album_name p), []⟩
            else prev)
    ∧ (∀ m f, selectedDescriptor dir.files = some m → rf m = none →
        f ∈ dir.files → isAudioName f = true →
        Event.tagged (dir.path ++ [f])
            ⟨none, none, some (get_album_name (dir.path ++ [f])), []⟩
          ∈ (processDir rf st dir).1)
    ∧ (∀ (rfg : Path → Str → Option Str) (d : SongDir) (rest : List SongDir)
          (s : TagState),
        (runRetagger rfg (d :: rest) s).1
          = (processDir (rfg d.path) s d).1 ++ rest.flatMap (dirEvents rfg)) := by
  have htv : ∀ p : Path, taggedValue none p
      = ⟨none, none, some (get_album_name p), []⟩ := by
    intro p
    simp [taggedValue, writtenTags, parse_metadata_file, finalTitle]
  refine ⟨rfl, ?_, ?_, ?_⟩
  · intro p prev
    by_cases hp : isAudioName (basename p) = true
    · rw [if_pos hp, apply_tags_audio _ _ _ hp, htv]
    · rw [if_neg (by simpa using hp)]
      simp only [isAudioName, decide_eq_true_eq] at hp
      push_neg at hp
      simp [apply_tags, hp.1, hp.2]
  · intro m f hm hrf hf ha
    simp only [processDir_char, hm]
    apply List.mem_append_left
    apply List.mem_flatMap.mpr
    refine ⟨f, hf, ?_⟩
    simp only [fileEvent, ha, if_true, hrf, htv]
    exact List.mem_singleton.mpr rfl
  · intro rfg d rest s
    rw [runRetagger_cons]
    simp only
    rw [runRetagger_fst]

theorem c5_unreadable_descriptor_witness :
    Event.tagged
        (["Songs".toList, "Pack".toList, "Song".toList] ++ ["song.ogg".toList])
        ⟨none, none,
         some (get_album_name
           (["Songs".toList, "Pack".toList, "Song".toList] ++ ["song.ogg".toList])), []⟩
      ∈ (processDir (fun _ => none) (fun _ => ⟨none, none, none, []⟩)
          ⟨["Songs".toList, "Pack".toList, "Song".toList],
           ["notes.ssc".toList, "song.ogg".toList]⟩).1 :=
  (c5_unreadable_descriptor (fun _ => none) (fun _ => ⟨none, none, none, []⟩)
      ⟨["Songs".toList, "Pack".toList, "Song".toList],
       ["notes.ssc".toList, "song.ogg".toList]⟩).2.2.1
    "notes.ssc".toList "song.ogg".toList (by decide) rfl (by decide) (by decide)

/-- C8: a directory containing at least one `.ogg` and at least one `.mp3`
file emits exactly one mixed-format warning naming that directory, as the
last of the directory's events (after all files were processed), and the
warning changes nothing about tagging: with a resolved descriptor both
files still receive their normal tag-write events. -/
theorem c8_mixed_format_warning (rf : Str → Option Str) (st : TagState) (dir : SongDir)
    (fo fm : Str) (hfo : fo ∈ dir.files) (ho : lowerExt fo = oggExt)
    (hfm : fm ∈ dir.files) (hm : lowerExt fm = mp3Ext) :
    (processDir rf st dir).1.countP
        (fun e => decide (e = Event.mixedFormatWarning dir.path)) = 1
    ∧ (processDir rf st dir).1.getLast? = some (Event.mixedFormatWarning dir.path)
    ∧ (∀ m, selectedDescriptor dir.files = some m →
        Event.tagged (dir.path ++ [fo]) (taggedValue (rf m) (dir.path ++ [fo]))
            ∈ (processDir rf st dir).1
        ∧ Event.tagged (dir.path ++ [fm]) (taggedValue (rf m) (dir.path ++ [fm]))
            ∈ (processDir rf st dir).1) := by
  have hmix : mixedWarn dir = [Event.mixedFormatWarning dir.path] := by
    unfold mixedWarn
    rw [if_pos]
    rw [Bool.and_eq_true]
    constructor
    · exact List.any_eq_true.mpr ⟨fo, hfo, by simp [ho]⟩
    · exact List.any_eq_true.mpr ⟨fm, hfm, by simp [hm]⟩
  have hzero : (dir.files.flatMap
        (fileEvent (selectedDescriptor dir.files) rf dir.path)).countP
      (fun e => decide (e = Event.mixedFormatWarning dir.path)) = 0 := by
    apply List.countP_eq_zero.mpr
    intro e he
    rcases List.mem_flatMap.mp he with ⟨g, hg, hev⟩
    by_cases hag : isAudioName g = true
    · cases hmeta : selectedDescriptor dir.files with
      | none =>
        rw [hmeta] at hev
        simp only [fileEvent, hag, if_true, List.mem_singleton] at hev
        subst hev
        simp
      | some m =>
        rw [hmeta] at hev
        simp only [fileEvent, hag, if_true, List.mem_singleton] at hev
        subst hev
        simp
    · simp [fileEvent, hag] at hev
  refine ⟨?_, ?_, ?_⟩
  · simp only [processDir_char, hmix]
    rw [List.countP_append, hzero, List.countP_cons]
    simp
  · simp only [processDir_char, hmix]
    exact List.getLast?_concat _
  · intro m hmeta
    constructor
    · simp only [processDir_char, hmeta]
      apply List.mem_append_left
      apply List.mem_flatMap.mpr
      refine ⟨fo, hfo, ?_⟩
      have hao : isAudioName fo = true := by simp [isAudioName, ho]
      simp [fileEvent, hao]
    · simp only [processDir_char, hmeta]
      apply List.mem_append_left
      apply List.mem_flatMap.mpr
      refine ⟨fm, hfm, ?_⟩
      have ham : isAudioName fm = true := by simp [isAudioName, hm]
      simp [fileEvent, ham]

theorem c8_mixed_format_warning_witness :
    (processDir (fun _ => some "#TITLE:Foo;".toList)
        (fun _ => ⟨none, none, none, []⟩)
        ⟨["Songs".toList, "Pack".toList, "Song".toList],
         ["a.ogg".toList, "b.mp3".toList, "notes.sm".toList]⟩).1.countP
        (fun e => decide
          (e = Event.mixedFormatWarning ["Songs".toList, "Pack".toList, "Song".toList])) = 1
    ∧ (processDir (fun _ => some "#TITLE:Foo;".toList)
        (fun _ => ⟨none, none, none, []⟩)
        ⟨["Songs".toList, "Pack".toList, "Song".toList],
         ["a.ogg".toList, "b.mp3".toList, "notes.sm".toList]⟩).1.getLast?
      = some (Event.mixedFormatWarning ["Songs".toList, "Pack".toList, "Song".toList])
    ∧ (∀ m, selectedDescriptor ["a.ogg".toList, "b.mp3".toList, "notes.sm".toList]
          = some m →
        Event.tagged (["Songs".toList, "Pack".toList, "Song".toList] ++ ["a.ogg".toList])
            (taggedValue ((fun _ => some "#TITLE:Foo;".toList) m)
              (["Songs".toList, "Pack".toList, "Song".toList] ++ ["a.ogg".toList]))
            ∈ (processDir (fun _ => some "#TITLE:Foo;".toList)
                (fun _ => ⟨none, none, none, []⟩)
                ⟨["Songs".toList, "Pack".toList, "Song".toList],
                 ["a.ogg".toList, "b.mp3".toList, "notes.sm".toList]⟩).1
        ∧ Event.tagged (["Songs".toList, "Pack".toList, "Song".toList] ++ ["b.mp3".toList])
            (taggedValue ((fun _ => some "#TITLE:Foo;".toList) m)
              (["Songs".toList, "Pack".toList, "Song".toList] ++ ["b.mp3".toList]))
            ∈ (processDir (fun _ => some "#TITLE:Foo;".toList)
                (fun _ => ⟨none, none, none, []⟩)
                ⟨["Songs".toList, "Pack".toList, "Song".toList],
                 ["a.ogg".toList, "b.mp3".toList, "notes.sm".toList]⟩).1) :=
  c8_mixed_format_warning (fun _ => some "#TITLE:Foo;".toList)
    (fun _ => ⟨none, none, none, []⟩)
    ⟨["Songs".toList, "Pack".toList, "Song".toList],
     ["a.ogg".toList, "b.mp3".toList, "notes.sm".toList]⟩
    "a.ogg".toList "b.mp3".toList (by decide) (by decide) (by decide) (by decide)

/-- C4: tag writing is idempotent.  The container an audio file ends up
with never depends on the tags it had before the run (full wipe before
write), so re-running the whole retagger on the same unchanged tree
reproduces exactly the same events and the same final tag state, with no
accumulated fields. -/
theorem c4_retag_idempotent (rfg : Path → Str → Option Str) (dirs : List SongDir)
    (st : TagState) :
    runRetagger rfg dirs ((runRetagger rfg dirs st).2) = runRetagger rfg dirs st
    ∧ (∀ (mc : Option Str) (p : Path) (prev prev' : TagContainer),
        isAudioName (basename p) = true →
        apply_tags mc p prev = apply_tags mc p prev') := by
  constructor
  · apply Prod.ext
    · rw [runRetagger_fst, runRetagger_fst]
    · funext q
      rcases runRetagger_snd_override rfg dirs ((runRetagger rfg dirs st).2) q with h | h
      · exact h
      · exact h _ _
  · intro mc p prev prev' hp
    rw [apply_tags_audio _ _ _ hp, apply_tags_audio _ _ _ hp]

theorem c4_retag_idempotent_witness :
    runRetagger (fun _ _ => some "#TITLE:Foo;".toList)
        [⟨["Songs".toList, "Pack".toList, "Song".toList],
          ["song.ogg".toList, "notes.sm".toList]⟩]
        ((runRetagger (fun _ _ => some "#TITLE:Foo;".toList)
            [⟨["Songs".toList, "Pack".toList, "Song".toList],
              ["song.ogg".toList, "notes.sm".toList]⟩]
            (fun _ => ⟨some "Old".toList, some "Old".toList, some "Old".toList,
              [("junk".toList, "junk".toList)]⟩)).2)
      = runRetagger (fun _ _ => some "#TITLE:Foo;".toList)
          [⟨["Songs".toList, "Pack".toList, "Song".toList],
            ["song.ogg".toList, "notes.sm".toList]⟩]
          (fun _ => ⟨some "Old".toList, some "Old".toList, some "Old".toList,
            [("junk".toList, "junk".toList)]⟩)
    ∧ apply_tags (some "#TITLE:Foo;".toList)
        ["Songs".toList, "Pack".toList, "Song".toList, "song.ogg".toList]
        ⟨some "Old".toList, none, none, [("junk".toList, "junk".toList)]⟩
      = apply_tags (some "#TITLE:Foo;".toList)
          ["Songs".toList, "Pack".toList, "Song".toList, "song.ogg".toList]
          ⟨none, none, none, []⟩ :=
  ⟨(c4_retag_idempotent (fun _ _ => some "#TITLE:Foo;".toList)
      [⟨["Songs".toList, "Pack".toList, "Song".toList],
        ["song.ogg".toList, "notes.sm".toList]⟩]
      (fun _ => ⟨some "Old".toList, some "Old".toList, some "Old".toList,
        [("junk".toList, "junk".toList)]⟩)).1,
   (c4_retag_idempotent (fun _ _ => some "#TITLE:Foo;".toList) [] (fun _ => ⟨none, none, none, []⟩)).2
     (some "#TITLE:Foo;".toList)
     ["Songs".toList, "Pack".toList, "Song".toList, "song.ogg".toList]
     ⟨some "Old".toList, none, none, [("junk".toList, "junk".toList)]⟩
     ⟨none, none, none, []⟩ (by decide)⟩

/-! ## Lemmas for the similarity exporter -/

theorem simRowsFrom_length (row : ManifestRow) :
    ∀ (l : List SimItem) (k : Int), (simRowsFrom row k l).length = l.length := by
  intro l
  induction l with
  | nil => intro k; rfl
  | cons it rest ih =>
    intro k
    simp [simRowsFrom, ih (k + 1)]

theorem simRowsFrom_rank_map (row : ManifestRow) :
    ∀ (l : List SimItem) (k : Int),
      (simRowsFrom row k l).map OutRow.rank
        = (List.range l.length).map (fun i : Nat => k + (i : Int)) := by
  intro l
  induction l with
  | nil => intro k; rfl
  | cons it rest ih =>
    intro k
    rw [show simRowsFrom row k (it :: rest)
        = simRow row k it :: simRowsFrom row (k + 1) rest from rfl]
    rw [List.map_cons, ih (k + 1), List.length_cons, List.range_succ_eq_map,
      List.map_cons, List.map_map]
    congr 1
    · simp [simRow]
    · apply List.map_congr_left
      intro a ha
      simp only [Function.comp_apply]
      push_cast
      ring

theorem simRowsFrom_fields_map (row : ManifestRow) :
    ∀ (l : List SimItem) (k : Int),
      (simRowsFrom row k l).map (fun r => (r.title, r.artist, r.album, r.distance))
        = l.map (fun it => (it.title, it.author, it.album, it.distance)) := by
  intro l
  induction l with
  | nil => intro k; rfl
  | cons it rest ih =>
    intro k
    simp [simRowsFrom, simRow, ih (k + 1)]

/-- C9: for a manifest row whose three API requests all succeed, exactly
`results.length + 1` rows are written: one row per similar track, with
ranks `1, 2, ...` in result order and the track's metadata, followed by
exactly one rank `-1` row carrying the farthest track's metadata and the
maximum distance; for a row where any request fails nothing is written,
and processing continues with the remaining manifest rows either way. -/
theorem c9_similarity_rows :
    (∀ (row : ManifestRow) (results : List SimItem) (md : Option Str) (far : SimItem),
      (rowOutput row (ApiOutcome.success results md far)).length = results.length + 1
      ∧ (rowOutput row (ApiOutcome.success results md far)).map OutRow.rank
          = (List.range results.length).map (fun i : Nat => 1 + (i : Int)) ++ [-1]
      ∧ (rowOutput row (ApiOutcome.success results md far)).map
            (fun r => (r.title, r.artist, r.album, r.distance))
          = results.map (fun it => (it.title, it.author, it.album, it.distance))
              ++ [(far.title, far.author, far.album, md)]
      ∧ (rowOutput row (ApiOutcome.success results md far)).getLast?
          = some (farRow row far md))
    ∧ (∀ row : ManifestRow, rowOutput row ApiOutcome.failure = [])
    ∧ (∀ (api : ManifestRow → ApiOutcome) (row : ManifestRow)
          (rest : List ManifestRow),
        retrieve_similarity api (row :: rest)
          = rowOutput row (api row) ++ retrieve_similarity api rest) := by
  refine ⟨?_, fun row => rfl, fun api row rest => rfl⟩
  intro row results md far
  refine ⟨?_, ?_, ?_, ?_⟩
  · simp [rowOutput, simRowsFrom_length]
  · simp only [rowOutput, List.map_append, simRowsFrom_rank_map]
    rfl
  · simp only [rowOutput, List.map_append, simRowsFrom_fields_map]
    rfl
  · exact List.getLast?_concat _

end DDR
